import Mathlib

/-
Verification of the HL7 SIU^S12 parser core (hl7.py, siu_s12.py).

Strings are modelled as lists of characters (`Str`).  Machine behaviour of
Python that the claims depend on is modelled explicitly:

  * Python list indexing with an `int` index uses negative indices from the
    end and raises IndexError outside `-len .. len-1`; this is `pyGetElem`,
    and the fallible lookups return `Except PyErr _`.
  * `datetime.date` / `datetime.datetime` constructors raise ValueError when
    a component is out of range; `timezone` raises when the offset is not
    strictly between -24h and +24h.  These validations are `mkDate`,
    `mkDatetime` and the offset check in the timestamp parser.

The separator set is modelled as five characters, as the message parser
always constructs it (each separator is a single character drawn from the
header line), matching the data model of the specification.
-/

set_option maxRecDepth 4000

namespace SiuParser

/-- Character strings, modelled as lists of characters. -/
abbrev Str := List Char

/-- ASCII whitespace as stripped by Python str.strip(). -/
def isPySpace (c : Char) : Bool :=
  c = ' ' || c = '\t' || c = '\n' || c = '\r' || c = '\x0b' || c = '\x0c'

/-- A string is blank when it strips to nothing (Python: not s.strip()). -/
def isBlank (s : Str) : Bool := s.all isPySpace

/-- Python s.startswith("MSH"). -/
def startsMSH (s : Str) : Bool := s.take 3 == "MSH".data

/-- Python str.split(sep) for a one-character separator: n separator
occurrences yield n+1 parts, empty parts kept. -/
def splitOnChar (sep : Char) : Str → List Str
  | [] => [[]]
  | c :: rest =>
    if c = sep then [] :: splitOnChar sep rest
    else
      match splitOnChar sep rest with
      | [] => [[c]]
      | p :: ps => (c :: p) :: ps

/-- Python "\r".join(parts). -/
def joinCR : List Str → Str
  | [] => []
  | [x] => x
  | x :: y :: rest => x ++ '\r' :: joinCR (y :: rest)

/-- Python " ".join(parts). -/
def joinSpace : List Str → Str
  | [] => []
  | [x] => x
  | x :: y :: rest => x ++ ' ' :: joinSpace (y :: rest)

/-- Python str.strip() (ASCII whitespace). -/
def pyStrip (s : Str) : Str :=
  ((s.dropWhile isPySpace).reverse.dropWhile isPySpace).reverse

/-- Python raw.replace("\r\n", "\r"): left-to-right, non-overlapping. -/
def replaceCRLF : Str → Str
  | '\r' :: '\n' :: rest => '\r' :: replaceCRLF rest
  | c :: rest => c :: replaceCRLF rest
  | [] => []

/-- hl7.py normalize_newlines: fold "\r\n" and "\n" into "\r", strip a
leading BOM (Python lstrip strips every leading BOM character). -/
def normalize_newlines (raw : Str) : Str :=
  ((replaceCRLF raw).map (fun c => if c = '\n' then '\r' else c)).dropWhile
    (fun c => c = '\uFEFF')

/-- The non-blank segment lines of a raw text after newline normalization
(hl7.py: [s for s in raw.split("\r") if s.strip()]). -/
def segLines (raw : Str) : List Str :=
  (splitOnChar '\r' (normalize_newlines raw)).filter (fun s => !(isBlank s))

/-- Indices of the segment lines that start with the header marker
(hl7.py: [i for i, seg in enumerate(segments) if seg.startswith("MSH")]). -/
def mshIndexes (segments : List Str) : List Nat :=
  (List.range segments.length).filter (fun i => startsMSH (segments.getD i []))

/-- hl7.py split_messages: partition the segment lines into runs that each
start at a header-marker index, rejoin each run with "\r" and append a
trailing "\r". -/
def split_messages (raw : Str) : List Str :=
  let segments := segLines raw
  let idxs := mshIndexes segments
  if idxs = [] then []
  else
    (List.range idxs.length).map (fun k =>
      let start := idxs.getD k 0
      let e := if k + 1 < idxs.length then idxs.getD (k + 1) 0 else segments.length
      joinCR ((segments.drop start).take (e - start)) ++ ['\r'])

/-- The five declared separators (hl7.py Separators).  The message parser
always produces single characters for each. -/
structure Separators where
  field : Char
  component : Char
  repetition : Char
  escape : Char
  subcomponent : Char
deriving DecidableEq

/-- segments: 3-letter segment name -> occurrences -> ordered field list,
insertion-ordered as a Python dict. -/
abbrev SegDict := List (Str × List (List Str))

/-- Python segments.get(key). -/
def dictGet? : SegDict → Str → Option (List (List Str))
  | [], _ => none
  | (k, v) :: rest, key => if k = key then some v else dictGet? rest key

/-- Python segments.setdefault(key, []).append(fields). -/
def dictAppend : SegDict → Str → List Str → SegDict
  | [], key, fields => [(key, [fields])]
  | (k, v) :: rest, key, fields =>
    if k = key then (k, v ++ [fields]) :: rest
    else (k, v) :: dictAppend rest key fields

/-- hl7.py HL7Message. -/
structure HL7Message where
  seps : Separators
  segments : SegDict
deriving DecidableEq

/-- Python exceptions that can escape the modelled fragments. -/
inductive PyErr
  | indexError
  | valueError
  | overflowError
deriving DecidableEq

/-- Python l[i] for an int index i: negative indices count from the end,
out-of-range indexing is an IndexError (`none`). -/
def pyGetElem {α : Type} (l : List α) (i : Int) : Option α :=
  if 0 ≤ i then l.get? i.toNat
  else if (-i) ≤ (l.length : Int) then l.get? (l.length - (-i).toNat)
  else none

/-- hl7.py HL7Message.get_field, with Python int index semantics.
Returns the raw field string at the coordinate, the default on the misses
the code tests for, and IndexError where Python list indexing raises. -/
def get_field (msg : HL7Message) (seg : Str) (field_num seg_index : Int)
    (default : Str) : Except PyErr Str :=
  match dictGet? msg.segments seg with
  | none => .ok default
  | some occs =>
    if occs = [] ∨ seg_index ≥ (occs.length : Int) then .ok default
    else
      match pyGetElem occs seg_index with
      | none => .error .indexError
      | some fields =>
        if field_num ≥ (fields.length : Int) then .ok default
        else
          match pyGetElem fields field_num with
          | none => .error .indexError
          | some v => .ok (if v = [] then default else v)

/-- get_field at nonnegative coordinates (every call site of the extractor
uses nonnegative literals; `get_field_agree` connects the two). -/
def get_fieldN (msg : HL7Message) (seg : Str) (field_num seg_index : Nat)
    (default : Str) : Str :=
  match dictGet? msg.segments seg with
  | none => default
  | some occs =>
    if seg_index ≥ occs.length then default
    else
      let fields := occs.getD seg_index []
      if field_num ≥ fields.length then default
      else
        let v := fields.getD field_num []
        if v = [] then default else v

/-- The reserved single-letter escape codes (hl7.py _ESCAPE_MAP_KEYS):
anything else is left unchanged, delimiters included. -/
def escCode (seps : Separators) (code : Str) : Str :=
  if code = ['F'] then [seps.field]
  else if code = ['S'] then [seps.component]
  else if code = ['R'] then [seps.repetition]
  else if code = ['E'] then [seps.escape]
  else if code = ['T'] then [seps.subcomponent]
  else seps.escape :: code ++ [seps.escape]

/-- Scan for the closing escape character: stops at the first escape
character; fails on a newline first (the regex "." does not match "\n"). -/
def scanCloser (esc : Char) : Str → Option (Str × Str)
  | [] => none
  | c :: rest =>
    if c = esc then some ([], rest)
    else if c = '\n' then none
    else
      match scanCloser esc rest with
      | none => none
      | some (pre, rem) => some (c :: pre, rem)

/-- Try to match the regex esc(.+?)esc at the current position, given the
characters after the opening escape character: the enclosed text is the
shortest nonempty newline-free run up to the next escape character.
Returns (enclosed text, remainder after the closing character). -/
def matchEsc (esc : Char) : Str → Option (Str × Str)
  | [] => none
  | c :: rest =>
    if c = '\n' then none
    else
      match scanCloser esc rest with
      | none => none
      | some (pre, rem) => some (c :: pre, rem)

/-- One left-to-right re.sub pass.  The fuel is an upper bound on the number
of steps; every step consumes at least one character, so fuel = length of
the string never runs out. -/
def unescapeGo (seps : Separators) : Nat → Str → Str
  | 0, s => s
  | _ + 1, [] => []
  | fuel + 1, c :: rest =>
    if c = seps.escape then
      match matchEsc seps.escape rest with
      | some (code, rem) => escCode seps code ++ unescapeGo seps fuel rem
      | none => c :: unescapeGo seps fuel rest
    else c :: unescapeGo seps fuel rest

/-- hl7.py unescape_hl7. -/
def unescape_hl7 (value : Str) (seps : Separators) : Str :=
  if value = [] ∨ seps.escape ∉ value then value
  else unescapeGo seps value.length value

/-- The repetition/component selection and escape decoding that
HL7Message.get_component applies to the fetched raw value. -/
def componentPipe (seps : Separators) (raw : Str) (comp_num rep_index : Nat)
    (default : Str) : Str :=
  if raw = [] then default
  else
    let reps := splitOnChar seps.repetition raw
    if rep_index ≥ reps.length then default
    else
      let rep_val := reps.getD rep_index []
      let comps := splitOnChar seps.component rep_val
      if comp_num = 0 then default
      else if comp_num - 1 ≥ comps.length then default
      else
        let out := unescape_hl7 (comps.getD (comp_num - 1) []) seps
        if out = [] then default else out

/-- hl7.py HL7Message.get_component at nonnegative coordinates: fetch the
raw field (the miss already yields the default, which then flows through
the pipe), then select repetition and component and escape-decode. -/
def get_componentN (msg : HL7Message) (seg : Str)
    (field_num comp_num seg_index rep_index : Nat) (default : Str) : Str :=
  componentPipe msg.seps (get_fieldN msg seg field_num seg_index default)
    comp_num rep_index default

/-- hl7.py HL7Message.get_component with Python int index semantics. -/
def get_component (msg : HL7Message) (seg : Str)
    (field_num comp_num seg_index rep_index : Int) (default : Str) :
    Except PyErr Str :=
  match get_field msg seg field_num seg_index default with
  | .error e => .error e
  | .ok raw =>
    if raw = [] then .ok default
    else
      let reps := splitOnChar msg.seps.repetition raw
      if rep_index ≥ (reps.length : Int) then .ok default
      else
        match pyGetElem reps rep_index with
        | none => .error .indexError
        | some rep_val =>
          let comps := splitOnChar msg.seps.component rep_val
          if comp_num ≤ 0 then .ok default
          else if comp_num - 1 ≥ (comps.length : Int) then .ok default
          else
            match pyGetElem comps (comp_num - 1) with
            | none => .error .indexError
            | some comp =>
              let out := unescape_hl7 comp msg.seps
              .ok (if out = [] then default else out)

/-- Wire-format errors (exceptions.py HL7ParseError). -/
inductive HL7Err
  | parseError (msg : Str)
deriving DecidableEq

/-- hl7.py parse_message. -/
def parse_message (message : Str) : Except HL7Err HL7Message :=
  let seg_lines := segLines message
  match seg_lines with
  | [] => .error (.parseError "Message does not start with MSH segment.".data)
  | s0 :: _ =>
    if !(startsMSH s0) then
      .error (.parseError "Message does not start with MSH segment.".data)
    else if s0.length < 4 then
      .error (.parseError "MSH segment too short to contain field separator.".data)
    else
      let field_sep := s0.getD 3 ' '
      let msh_parts := splitOnChar field_sep s0
      let enc :=
        match msh_parts with
        | _ :: e :: _ => if e = [] then "^~\\&".data else e
        | _ => "^~\\&".data
      let seps : Separators :=
        { field := field_sep
          component := enc.getD 0 '^'
          repetition := enc.getD 1 '~'
          escape := enc.getD 2 '\\'
          subcomponent := enc.getD 3 '&' }
      let segments := seg_lines.foldl (fun d line =>
        if line.length < 3 then d
        else
          let name := line.take 3
          let parts := splitOnChar field_sep line
          let fields :=
            if name = "MSH".data then "MSH".data :: [field_sep] :: parts.drop 1
            else parts
          dictAppend d name fields) []
      .ok { seps := seps, segments := segments }

/-- A decimal digit. -/
def isDigitCh (c : Char) : Bool := '0' ≤ c && c ≤ '9'

/-- Decimal value of a digit string. -/
def strToNat (s : Str) : Nat := s.foldl (fun a c => a * 10 + (c.toNat - 48)) 0

/-- The groups captured by hl7.py _TS_RE. -/
structure TSGroups where
  yyyy : Str
  pairs : List Str
  fraction : Option Str
  tzPlus : Option Bool
  tzDigits : Str
deriving DecidableEq

/-- Consume up to n leading two-digit groups, greedily, as the regex
(\d{2})? groups for month/day/hour/minute/second do. -/
def takePairs : Nat → Str → List Str × Str
  | 0, s => ([], s)
  | n + 1, s =>
    match s with
    | c1 :: c2 :: rest =>
      if isDigitCh c1 && isDigitCh c2 then
        let (ps, rem) := takePairs n rest
        ([c1, c2] :: ps, rem)
      else ([], s)
    | _ => ([], s)

/-- Anchored match of hl7.py _TS_RE: a mandatory 4-digit year, up to five
2-digit groups, an optional "." plus one or more digits, an optional
signed 4-digit offset, end of string.  Every group is fixed-width (or the
greedy \d+ that only a non-digit can follow), so the greedy left-to-right
reading is exactly the regex semantics. -/
def matchTS (s : Str) : Option TSGroups :=
  match s with
  | y1 :: y2 :: y3 :: y4 :: rest =>
    if isDigitCh y1 && isDigitCh y2 && isDigitCh y3 && isDigitCh y4 then
      let (pairs, r1) := takePairs 5 rest
      -- a digit after the consumed 2-digit groups can be matched by no
      -- later group, and backtracking over exact-width groups cannot help
      if (match r1 with | c :: _ => isDigitCh c | [] => false) then none
      else
        let fracRes : Option (Option Str × Str) :=
          match r1 with
          | '.' :: r2 =>
            let ds := r2.takeWhile isDigitCh
            if ds = [] then none else some (some ds, r2.dropWhile isDigitCh)
          | _ => some (none, r1)
        match fracRes with
        | none => none
        | some (frac, r3) =>
          match r3 with
          | [] => some ⟨[y1, y2, y3, y4], pairs, frac, none, []⟩
          | sign :: tzrest =>
            if sign = '+' ∨ sign = '-' then
              match tzrest with
              | [d1, d2, d3, d4] =>
                if isDigitCh d1 && isDigitCh d2 && isDigitCh d3 && isDigitCh d4 then
                  some ⟨[y1, y2, y3, y4], pairs, frac, some (sign = '+'), [d1, d2, d3, d4]⟩
                else none
              | _ => none
            else none
    else none
  | _ => none

/-- How many days datetime.date allows in a month. -/
def isLeapYear (y : Nat) : Bool := (y % 4 == 0 && y % 100 != 0) || y % 400 == 0

def daysInMonth (y m : Nat) : Nat :=
  if m = 2 then (if isLeapYear y then 29 else 28)
  else if m = 4 ∨ m = 6 ∨ m = 9 ∨ m = 11 then 30 else 31

/-- The calendar date, as a value. -/
structure PyDate where
  year : Nat
  month : Nat
  day : Nat
deriving DecidableEq

/-- datetime.date(y, m, d): ValueError outside year 1..9999, month 1..12,
day 1..days-in-month. -/
def mkDate (y m d : Nat) : Except PyErr PyDate :=
  if 1 ≤ y ∧ y ≤ 9999 ∧ 1 ≤ m ∧ m ≤ 12 ∧ 1 ≤ d ∧ d ≤ daysInMonth y m then
    .ok ⟨y, m, d⟩
  else .error .valueError

/-- A timezone-aware datetime value: calendar fields plus the declared UTC
offset in minutes. -/
structure DateTime where
  year : Nat
  month : Nat
  day : Nat
  hour : Nat
  minute : Nat
  second : Nat
  microsecond : Nat
  offMinutes : Int
deriving DecidableEq

/-- datetime.datetime(y, mo, d, h, mi, s, microsecond, tzinfo): ValueError
when a component is out of its range. -/
def mkDatetime (y mo d h mi s micro : Nat) (off : Int) : Except PyErr DateTime :=
  if 1 ≤ y ∧ y ≤ 9999 ∧ 1 ≤ mo ∧ mo ≤ 12 ∧ 1 ≤ d ∧ d ≤ daysInMonth y mo
      ∧ h ≤ 23 ∧ mi ≤ 59 ∧ s ≤ 59 ∧ micro ≤ 999999 then
    .ok ⟨y, mo, d, h, mi, s, micro, off⟩
  else .error .valueError

/-- hl7.py parse_hl7_date: no value when the string is empty or does not
match the grammar; the date constructor may raise on a matching string. -/
def parse_hl7_date (value : Str) : Except PyErr (Option PyDate) :=
  if value = [] then .ok none
  else
    match matchTS value with
    | none => .ok none
    | some g =>
      (mkDate (strToNat g.yyyy) (strToNat ((g.pairs.get? 0).getD ['0', '1']))
        (strToNat ((g.pairs.get? 1).getD ['0', '1']))).map some

/-- hl7.py parse_hl7_ts_to_datetime: no value when the string is empty or
does not match the grammar; otherwise timezone() then datetime() with the
decoded components, either of which can raise ValueError. -/
def parse_hl7_ts_to_datetime (value : Str) : Except PyErr (Option DateTime) :=
  if value = [] then .ok none
  else
    match matchTS value with
    | none => .ok none
    | some g =>
      let yyyy := strToNat g.yyyy
      let mm := strToNat ((g.pairs.get? 0).getD ['0', '1'])
      let dd := strToNat ((g.pairs.get? 1).getD ['0', '1'])
      let hh := strToNat ((g.pairs.get? 2).getD ['0', '0'])
      let mi := strToNat ((g.pairs.get? 3).getD ['0', '0'])
      let ss := strToNat ((g.pairs.get? 4).getD ['0', '0'])
      let micro :=
        match g.fraction with
        | none => 0
        | some ds => strToNat ((ds ++ ['0', '0', '0', '0', '0', '0']).take 6)
      let offRes : Except PyErr Int :=
        match g.tzPlus with
        | none => .ok 0
        | some plus =>
          let hours := strToNat (g.tzDigits.take 2)
          let mins := strToNat (g.tzDigits.drop 2)
          let off : Int := (if plus then 1 else -1) * (hours * 60 + mins)
          -- timezone() requires the offset strictly between -24h and +24h
          if off ≤ -1440 ∨ 1440 ≤ off then .error .valueError else .ok off
      match offRes with
      | .error e => .error e
      | .ok off => (mkDatetime yyyy mm dd hh mi ss micro off).map some

/-- Days before January 1 of year y in the proleptic Gregorian calendar
(CPython datetime._days_before_year). -/
def daysBeforeYear (y : Nat) : Nat :=
  let n := y - 1
  365 * n + n / 4 + n / 400 - n / 100

/-- Days in year y before month m (CPython datetime._days_before_month). -/
def daysBeforeMonth (y m : Nat) : Nat :=
  (List.range (m - 1)).foldl (fun a i => a + daysInMonth y (i + 1)) 0

/-- Proleptic Gregorian ordinal, 0001-01-01 being day 1
(CPython datetime._ymd2ord). -/
def toOrdinal (y m d : Nat) : Nat := daysBeforeYear y + daysBeforeMonth y m + d

/-- Walk the months of year y to place a 0-based day of the year. -/
def monthScan (y : Nat) : Nat → Nat → Nat → Nat × Nat × Nat
  | 0, m, doy => (y, m, doy + 1)
  | fuel + 1, m, doy =>
    if doy < daysInMonth y m then (y, m, doy + 1)
    else monthScan y fuel (m + 1) (doy - daysInMonth y m)

/-- Inverse of toOrdinal (CPython datetime._ord2ymd: the 400/100/4/1-year
decomposition, with the two end-of-cycle corrections). -/
def fromOrdinal (nn : Nat) : Nat × Nat × Nat :=
  let n0 := nn - 1
  let n400 := n0 / 146097
  let r400 := n0 % 146097
  let n100 := r400 / 36524
  let r100 := r400 % 36524
  let n4 := r100 / 1461
  let r4 := r100 % 1461
  let n1 := r4 / 365
  let r1 := r4 % 365
  let year := n400 * 400 + n100 * 100 + n4 * 4 + n1 + 1
  if n1 = 4 ∨ n100 = 4 then (year - 1, 12, 31)
  else monthScan year 12 1 r1

def digitCh (n : Nat) : Char := Char.ofNat (48 + n % 10)

def pad2 (n : Nat) : Str := [digitCh (n / 10), digitCh n]

def pad4 (n : Nat) : Str :=
  [digitCh (n / 1000), digitCh (n / 100), digitCh (n / 10), digitCh n]

def pad6 (n : Nat) : Str :=
  [digitCh (n / 100000), digitCh (n / 10000), digitCh (n / 1000),
   digitCh (n / 100), digitCh (n / 10), digitCh n]

/-- date.isoformat(). -/
def dateIso (d : PyDate) : Str :=
  pad4 d.year ++ '-' :: pad2 d.month ++ '-' :: pad2 d.day

/-- hl7.py to_iso8601_z: dt.astimezone(timezone.utc), which renormalizes
the calendar after subtracting the offset and raises OverflowError outside
datetime's year range 1..9999, then isoformat(), whose "+00:00" suffix
(the only place a "+" can occur) is replaced by "Z". -/
def to_iso8601_z (dt : DateTime) : Except PyErr Str :=
  let secsLocal : Int := (toOrdinal dt.year dt.month dt.day : Int) * 86400
    + dt.hour * 3600 + dt.minute * 60 + dt.second
  let secsUTC : Int := secsLocal - dt.offMinutes * 60
  if secsUTC < 86400 ∨ (3652060 : Int) * 86400 ≤ secsUTC then .error .overflowError
  else
    let s := secsUTC.toNat
    let rem := s % 86400
    let ymd := fromOrdinal (s / 86400)
    .ok (pad4 ymd.1 ++ '-' :: pad2 ymd.2.1 ++ '-' :: pad2 ymd.2.2
      ++ 'T' :: pad2 (rem / 3600) ++ ':' :: pad2 (rem % 3600 / 60)
      ++ ':' :: pad2 (rem % 60)
      ++ (if dt.microsecond = 0 then [] else '.' :: pad6 dt.microsecond)
      ++ ['Z'])

/-- The three error kinds the extractor can surface, plus a propagated
Python exception (the timestamp/date constructors can raise ValueError
out of parse_siu_s12_appointment). -/
inductive SiuError
  | unsupportedMessageType (raw : Str)
  | missingSegment
  | pyError (e : PyErr)
deriving DecidableEq

/-- siu_s12.py _first_nonempty. -/
def firstNonempty : List Str → Str
  | [] => []
  | v :: rest => if v ≠ [] then v else firstNonempty rest

/-- The first two components of MSH-9, as the extractor reads them. -/
def mtPair (msg : HL7Message) : Str × Str :=
  (get_componentN msg "MSH".data 9 1 0 0 [],
   get_componentN msg "MSH".data 9 2 0 0 [])

/-- siu_s12.py validate_siu_s12. -/
def validate_siu_s12 (msg : HL7Message) : Except SiuError Unit :=
  if mtPair msg = ("SIU".data, "S12".data) then .ok ()
  else .error (.unsupportedMessageType (get_fieldN msg "MSH".data 9 0 []))

/-- siu_s12.py: appointment id fallback chain. -/
def apptId (msg : HL7Message) : Str :=
  firstNonempty
    [get_componentN msg "SCH".data 1 1 0 0 [],
     get_componentN msg "SCH".data 2 1 0 0 [],
     get_fieldN msg "SCH".data 1 0 [],
     get_fieldN msg "SCH".data 2 0 []]

/-- siu_s12.py: the raw appointment-start value drawn from SCH-11. -/
def dtRaw (msg : HL7Message) : Str :=
  firstNonempty
    [get_componentN msg "SCH".data 11 4 0 0 [],
     get_componentN msg "SCH".data 11 1 0 0 [],
     get_fieldN msg "SCH".data 11 0 []]

def pidPresent (msg : HL7Message) : Bool :=
  (dictGet? msg.segments "PID".data).isSome

/-- siu_s12.py: patient id fallback chain (all empty without a PID). -/
def patientId (msg : HL7Message) : Str :=
  if pidPresent msg then
    firstNonempty
      [get_componentN msg "PID".data 3 1 0 0 [],
       get_componentN msg "PID".data 2 1 0 0 [],
       get_fieldN msg "PID".data 3 0 []]
  else []

def patientLast (msg : HL7Message) : Str :=
  if pidPresent msg then get_componentN msg "PID".data 5 1 0 0 [] else []

def patientFirst (msg : HL7Message) : Str :=
  if pidPresent msg then get_componentN msg "PID".data 5 2 0 0 [] else []

/-- siu_s12.py: the raw date-of-birth value drawn from PID-7. -/
def dobRaw (msg : HL7Message) : Str :=
  if pidPresent msg then get_fieldN msg "PID".data 7 0 [] else []

def genderOf (msg : HL7Message) : Str :=
  if pidPresent msg then get_fieldN msg "PID".data 8 0 [] else []

def pv1Present (msg : HL7Message) : Bool :=
  (dictGet? msg.segments "PV1".data).isSome

/-- siu_s12.py: the provider-field probe — the first of PV1-7, PV1-6,
PV1-8, PV1-9 whose raw value is non-empty, when a PV1 is present. -/
def providerField (msg : HL7Message) : Option Nat :=
  if pv1Present msg then
    [7, 6, 8, 9].find? (fun f => get_fieldN msg "PV1".data f 0 [] != [])
  else none

/-- (id, display name) drawn from a given PV1 field: component 1 is the
id; the name is prefix (component 6), given (3), family (2), joined by
single spaces with empty parts omitted. -/
def provPair (msg : HL7Message) (f : Nat) : Str × Str :=
  (get_componentN msg "PV1".data f 1 0 0 [],
   joinSpace (([get_componentN msg "PV1".data f 6 0 0 [],
     get_componentN msg "PV1".data f 3 0 0 [],
     get_componentN msg "PV1".data f 2 0 0 []]).filter (fun p => p != [])))

def provId (msg : HL7Message) : Str :=
  match providerField msg with
  | none => []
  | some f => (provPair msg f).1

def provName (msg : HL7Message) : Str :=
  match providerField msg with
  | none => []
  | some f => (provPair msg f).2

/-- siu_s12.py: location = facility, point of care, room, bed (PV1-3
components 4, 1, 2, 3), space-joined with empty parts omitted, stripped. -/
def locationOf (msg : HL7Message) : Str :=
  if pv1Present msg then
    pyStrip (joinSpace (([get_componentN msg "PV1".data 3 4 0 0 [],
      get_componentN msg "PV1".data 3 1 0 0 [],
      get_componentN msg "PV1".data 3 2 0 0 [],
      get_componentN msg "PV1".data 3 3 0 0 []]).filter (fun p => p != [])))
  else []

/-- siu_s12.py: reason fallback across SCH-7, SCH-8, SCH-6, and within
each field component 2, component 1, then the raw field. -/
def reasonOf (msg : HL7Message) : Str :=
  firstNonempty
    [get_componentN msg "SCH".data 7 2 0 0 [],
     get_componentN msg "SCH".data 7 1 0 0 [],
     get_fieldN msg "SCH".data 7 0 [],
     get_componentN msg "SCH".data 8 2 0 0 [],
     get_componentN msg "SCH".data 8 1 0 0 [],
     get_fieldN msg "SCH".data 8 0 [],
     get_componentN msg "SCH".data 6 2 0 0 [],
     get_componentN msg "SCH".data 6 1 0 0 [],
     get_fieldN msg "SCH".data 6 0 []]

/-- The extraction output record; every leaf is a string, so the shape is
fixed by the type and no leaf can be null. -/
structure PatientRec where
  id : Str
  first_name : Str
  last_name : Str
  dob : Str
  gender : Str
deriving DecidableEq

structure ProviderRec where
  id : Str
  name : Str
deriving DecidableEq

structure AppointmentRecord where
  appointment_id : Str
  appointment_datetime : Str
  patient : PatientRec
  provider : ProviderRec
  location : Str
  reason : Str
deriving DecidableEq

/-- siu_s12.py parse_siu_s12_appointment: validate the message type, then
require an SCH segment, then derive every field; the timestamp and date
conversions can propagate a Python ValueError. -/
def parse_siu_s12_appointment (msg : HL7Message) :
    Except SiuError AppointmentRecord :=
  match validate_siu_s12 msg with
  | .error e => .error e
  | .ok _ =>
    if dictGet? msg.segments "SCH".data = none then .error .missingSegment
    else
      match parse_hl7_ts_to_datetime (dtRaw msg) with
      | .error e => .error (.pyError e)
      | .ok dt_obj =>
        match (match dt_obj with
               | some dt => to_iso8601_z dt
               | none => .ok []) with
        | .error e => .error (.pyError e)
        | .ok appt_iso =>
          match parse_hl7_date (dobRaw msg) with
          | .error e => .error (.pyError e)
          | .ok dob_obj =>
            .ok
              { appointment_id := apptId msg
                appointment_datetime := appt_iso
                patient :=
                  { id := patientId msg
                    first_name := patientFirst msg
                    last_name := patientLast msg
                    dob := match dob_obj with
                           | some d => dateIso d
                           | none => []
                    gender := genderOf msg }
                provider := { id := provId msg, name := provName msg }
                location := locationOf msg
                reason := reasonOf msg }

instance {ε α : Type} [DecidableEq ε] [DecidableEq α] : DecidableEq (Except ε α) :=
  fun a b =>
  match a, b with
  | .ok x, .ok y =>
    if h : x = y then isTrue (by rw [h]) else isFalse (fun hh => by cases hh; exact h rfl)
  | .error x, .error y =>
    if h : x = y then isTrue (by rw [h]) else isFalse (fun hh => by cases hh; exact h rfl)
  | .ok _, .error _ => isFalse (fun hh => by cases hh)
  | .error _, .ok _ => isFalse (fun hh => by cases hh)

/-- Did the extractor reject the message type? -/
def isUnsupported : Except SiuError AppointmentRecord → Bool
  | .error (.unsupportedMessageType _) => true
  | _ => false

/-- Did the message parser raise? -/
def isErrHL7 : Except HL7Err HL7Message → Bool
  | .error _ => true
  | .ok _ => false

/-- The malformed-format condition of the claim: no segment line, the first
segment line does not start with the header marker, or it is shorter than
4 characters. -/
def malformedCond : List Str → Bool
  | [] => true
  | s0 :: _ => !(startsMSH s0) || decide (s0.length < 4)

/-- The stored occurrence list for a segment name (empty when absent). -/
def segOccs (msg : HL7Message) (seg : Str) : List (List Str) :=
  (dictGet? msg.segments seg).getD []

/-- The stored raw field string at a nonnegative coordinate. -/
def fieldAt (msg : HL7Message) (seg : Str) (f k : Nat) : Str :=
  ((segOccs msg seg).getD k []).getD f []

/-- The four miss conditions of field lookup: segment absent, occurrence
index out of range, field number out of range, stored value empty. -/
def fieldMiss (msg : HL7Message) (seg : Str) (f k : Nat) : Bool :=
  (dictGet? msg.segments seg).isNone
    || decide ((segOccs msg seg).length ≤ k)
    || decide (((segOccs msg seg).getD k []).length ≤ f)
    || (fieldAt msg seg f k == [])

/-- The provider derivation in the claim wording: the first of PV1-7,
PV1-6, PV1-8, PV1-9 whose raw value is non-empty supplies the pair, and
the pair is empty when all four are empty. -/
def providerSpec (msg : HL7Message) : Str × Str :=
  if get_fieldN msg "PV1".data 7 0 [] ≠ [] then provPair msg 7
  else if get_fieldN msg "PV1".data 6 0 [] ≠ [] then provPair msg 6
  else if get_fieldN msg "PV1".data 8 0 [] ≠ [] then provPair msg 8
  else if get_fieldN msg "PV1".data 9 0 [] ≠ [] then provPair msg 9
  else ([], [])

/-- The default HL7 separator set MSH|^~\&. -/
def defaultSeps : Separators := ⟨'|', '^', '~', '\\', '&'⟩

/-- The all-empty record, used only to give total projections below. -/
def emptyRecord : AppointmentRecord :=
  ⟨[], [], ⟨[], [], [], [], []⟩, ⟨[], []⟩, [], []⟩

/-- The valid SIU^S12 wire text of the repository's test suite. -/
def VALID_SIU : Str :=
  ("MSH|^~\\&|SEND|FAC|RECV|FAC|20250101120000+0600||SIU^S12|MSG0001|P|2.3\r"
    ++ "SCH|123456|FILL123||||||^General Consultation|||^^^20250502130000+0600\r"
    ++ "PID|1||P12345^^^HOSP^MR||Doe^John||19850210|M\r"
    ++ "PV1|1|O|ClinicA^203^^MainFacility|||D67890^Smith^Jane^^^Dr\r").data

/-- The wrong-message-type wire text of the repository's test suite. -/
def WRONG_TYPE : Str :=
  "MSH|^~\\&|SEND|FAC|RECV|FAC|20250101120000+0600||ADT^A01|MSG0002|P|2.3\r".data

def msgValid : HL7Message :=
  (parse_message VALID_SIU).toOption.getD ⟨defaultSeps, []⟩

def recValid : AppointmentRecord :=
  (parse_siu_s12_appointment msgValid).toOption.getD emptyRecord

def msgWrong : HL7Message :=
  (parse_message WRONG_TYPE).toOption.getD ⟨defaultSeps, []⟩

/-- A valid SIU^S12 message with an SCH segment but no PV1 and no PID. -/
def msgNoPv1 : HL7Message :=
  ⟨defaultSeps,
   [("MSH".data,
     [["MSH".data, "|".data, "^~\\&".data, [], [], [], [], [], [], "SIU^S12".data]]),
    ("SCH".data, [["SCH".data, "1".data]])]⟩

def recNoPv1 : AppointmentRecord :=
  (parse_siu_s12_appointment msgNoPv1).toOption.getD emptyRecord

/-- A valid SIU^S12 message whose SCH-11 matches the timestamp grammar but
names month 13. -/
def msgBadTs : HL7Message :=
  ⟨defaultSeps,
   [("MSH".data,
     [["MSH".data, "|".data, "^~\\&".data, [], [], [], [], [], [], "SIU^S12".data]]),
    ("SCH".data,
     [["SCH".data, "1".data, [], [], [], [], [], [], [], [], [], "20251301".data]])]⟩

/-- A one-segment message used for concrete index-semantics statements. -/
def msgSmall : HL7Message :=
  ⟨defaultSeps, [("PID".data, [["PID".data, "1".data]])]⟩

/-- Claim C7: timestamp parsing is precision-tolerant: a bare year parses
with month/day defaulted to 01, time to 00:00:00 and offset to UTC, and
"20250502130000+0600" parses and renders as "2025-05-02T07:00:00Z". -/
theorem C7_theorem :
    parse_hl7_ts_to_datetime "2025".data = .ok (some ⟨2025, 1, 1, 0, 0, 0, 0, 0⟩) ∧
    parse_hl7_ts_to_datetime "20250502130000+0600".data =
      .ok (some ⟨2025, 5, 2, 13, 0, 0, 0, 360⟩) ∧
    to_iso8601_z ⟨2025, 5, 2, 13, 0, 0, 0, 360⟩ = .ok "2025-05-02T07:00:00Z".data :=
  ⟨rfl, rfl, rfl⟩

/-- Claim C8: for every separator set, escape decoding is the identity on
every string not containing the escape character, and is consequently
idempotent on every string whose decoded form has no escape character. -/
theorem C8_theorem (seps : Separators) (v : Str) :
    (seps.escape ∉ v → unescape_hl7 v seps = v) ∧
    (seps.escape ∉ unescape_hl7 v seps →
      unescape_hl7 (unescape_hl7 v seps) seps = unescape_hl7 v seps) := by
  have idOf : ∀ w : Str, seps.escape ∉ w → unescape_hl7 w seps = w := by
    intro w h
    unfold unescape_hl7
    exact if_pos (Or.inr h)
  exact ⟨idOf v, fun h => idOf _ h⟩

theorem C8_witness : unescape_hl7 "abc".data defaultSeps = "abc".data :=
  (C8_theorem defaultSeps "abc".data).1 (by decide)

/-- Claim C5: the message parser raises a malformed-format error exactly
when, after normalization and blank-line removal, there is no segment
line, the first one does not start with "MSH", or it is shorter than 4
characters; in every other case it returns a structured message. -/
theorem C5_theorem (raw : Str) :
    isErrHL7 (parse_message raw) = malformedCond (segLines raw) := by
  unfold parse_message malformedCond
  cases h : segLines raw with
  | nil => simp [isErrHL7]
  | cons s0 rest =>
    by_cases h1 : startsMSH s0 <;> by_cases h2 : s0.length < 4 <;>
      simp [h1, h2, isErrHL7]

/-- Python l[i] at a nonnegative index is plain list lookup. -/
theorem pyGetElem_ofNat {α : Type} (l : List α) (k : Nat) :
    pyGetElem l (k : Int) = l.get? k := by
  unfold pyGetElem
  rw [if_pos (Int.ofNat_nonneg k)]
  simp

/-- Python l[i] at a nonnegative in-range index reads the element. -/
theorem pyGetElem_lt {α : Type} (l : List α) (k : Nat) (d : α) (h : k < l.length) :
    pyGetElem l (k : Int) = some (l.getD k d) := by
  rw [pyGetElem_ofNat, List.getD_eq_getElem l d h]
  simp [List.getElem?_eq_getElem h]

/-- The total nonnegative-index field lookup is exactly miss-or-stored. -/
theorem get_fieldN_eq (msg : HL7Message) (seg : Str) (f k : Nat) (d : Str) :
    get_fieldN msg seg f k d =
      if fieldMiss msg seg f k then d else fieldAt msg seg f k := by
  unfold get_fieldN fieldMiss fieldAt segOccs
  cases hd : dictGet? msg.segments seg with
  | none => simp
  | some occs =>
    dsimp only [Option.getD_some, Option.isNone_some, Bool.false_or]
    by_cases hk : occs.length ≤ k
    · rw [if_pos hk, decide_eq_true hk]
      simp
    · rw [if_neg hk, decide_eq_false hk]
      by_cases hf : (occs.getD k []).length ≤ f
      · rw [if_pos hf, decide_eq_true hf]
        simp
      · rw [if_neg hf, decide_eq_false hf]
        by_cases hv : (occs.getD k []).getD f [] = []
        · rw [if_pos hv, beq_iff_eq.mpr hv]
          simp
        · rw [if_neg hv, beq_eq_false_iff_ne.mpr hv]
          simp

/-- get_field at nonnegative coordinates never raises and agrees with the
nonnegative-index lookup. -/
theorem get_field_agree (msg : HL7Message) (seg : Str) (f k : Nat) (d : Str) :
    get_field msg seg (f : Int) (k : Int) d = .ok (get_fieldN msg seg f k d) := by
  unfold get_field get_fieldN
  cases hd : dictGet? msg.segments seg with
  | none => rfl
  | some occs =>
    dsimp only
    by_cases hk : occs.length ≤ k
    · rw [if_pos (Or.inr (show (k : Int) ≥ (occs.length : Int) by exact_mod_cast hk)),
        if_pos hk]
    · have hk' : k < occs.length := Nat.lt_of_not_le hk
      have hocc : ¬(occs = [] ∨ (k : Int) ≥ (occs.length : Int)) := by
        push_neg
        refine ⟨?_, by exact_mod_cast hk'⟩
        intro he
        rw [he] at hk'
        simp at hk'
      rw [if_neg hocc, if_neg hk, pyGetElem_lt occs k [] hk']
      dsimp only
      by_cases hf : (occs.getD k []).length ≤ f
      · rw [if_pos (show (f : Int) ≥ ((occs.getD k []).length : Int) by
            exact_mod_cast hf), if_pos hf]
      · have hf' : f < (occs.getD k []).length := Nat.lt_of_not_le hf
        rw [if_neg (show ¬((f : Int) ≥ ((occs.getD k []).length : Int)) by
            exact_mod_cast Nat.not_le.mpr hf'), if_neg hf,
          pyGetElem_lt (occs.getD k []) f [] hf']

/-- get_component at nonnegative coordinates never raises and agrees with
the nonnegative-index lookup used by the extractor. -/
theorem get_component_agree (msg : HL7Message) (seg : Str) (f c k r : Nat)
    (d : Str) :
    get_component msg seg (f : Int) (c : Int) (k : Int) (r : Int) d =
      .ok (get_componentN msg seg f c k r d) := by
  unfold get_component get_componentN componentPipe
  rw [get_field_agree]
  dsimp only
  by_cases hraw : get_fieldN msg seg f k d = []
  · rw [if_pos hraw, if_pos hraw]
  · rw [if_neg hraw, if_neg hraw]
    by_cases hr : (splitOnChar msg.seps.repetition (get_fieldN msg seg f k d)).length ≤ r
    · rw [if_pos (show (r : Int) ≥ _ by exact_mod_cast hr), if_pos hr]
    · have hr' := Nat.lt_of_not_le hr
      rw [if_neg (show ¬((r : Int) ≥ _) by exact_mod_cast Nat.not_le.mpr hr'),
        if_neg hr, pyGetElem_lt _ r [] hr']
      dsimp only
      by_cases hc0 : c = 0
      · subst hc0
        rw [if_pos (by norm_num), if_pos rfl]
      · have hc1 : 1 ≤ c := Nat.one_le_iff_ne_zero.mpr hc0
        rw [if_neg (show ¬((c : Int) ≤ 0) by exact_mod_cast Nat.not_le.mpr hc1),
          if_neg hc0]
        have hcast : (c : Int) - 1 = ((c - 1 : Nat) : Int) := by omega
        by_cases hcl :
            (splitOnChar msg.seps.component
              ((splitOnChar msg.seps.repetition
                (get_fieldN msg seg f k d)).getD r [])).length ≤ c - 1
        · rw [if_pos (by rw [hcast]; exact_mod_cast hcl), if_pos hcl]
        · have hcl' := Nat.lt_of_not_le hcl
          rw [if_neg (by rw [hcast]; exact_mod_cast Nat.not_le.mpr hcl'),
            if_neg hcl, hcast, pyGetElem_lt _ (c - 1) [] hcl']

/-- Claim C3 (amended to nonnegative indices): field lookup returns the
stored raw field string at the coordinate, and the caller-supplied
default exactly on the four miss conditions (segment absent, occurrence
index out of range, field number out of range, stored value empty). -/
theorem C3_theorem (msg : HL7Message) (seg : Str) (f k : Nat) (d : Str) :
    get_field msg seg (f : Int) (k : Int) d =
      .ok (if fieldMiss msg seg f k then d else fieldAt msg seg f k) := by
  rw [get_field_agree, get_fieldN_eq]

/-- Claim C3, the claim as frozen is false: with a negative field number
the lookup either raises IndexError or returns the field counted from the
end, never the default. -/
theorem C3_counterexample :
    get_field msgSmall "PID".data (-5) 0 "d".data = .error PyErr.indexError ∧
    get_field msgSmall "PID".data (-1) 0 "d".data = .ok "1".data ∧
    "1".data ≠ "d".data := by
  refine ⟨rfl, rfl, by decide⟩

/-- When field lookup misses, it returns whatever default it was given. -/
theorem get_fieldN_default (msg : HL7Message) (seg : Str) (f k : Nat) (d : Str)
    (hmiss : get_fieldN msg seg f k [] = []) : get_fieldN msg seg f k d = d := by
  rw [get_fieldN_eq] at hmiss ⊢
  by_cases hm : fieldMiss msg seg f k = true
  · rw [if_pos hm]
  · rw [if_neg hm] at hmiss
    exact absurd (by unfold fieldMiss; rw [beq_iff_eq.mpr hmiss]; simp) hm

/-- Claim C10: when the underlying field lookup misses and the default is
non-empty, component lookup runs the repetition/component/unescape pipe on
the default string itself; with default "A^B" and component 1 this returns
"A", a proper substring of the default. -/
theorem C10_theorem (msg : HL7Message) (seg : Str) (f c k r : Nat) (d : Str)
    (_hd : d ≠ []) (hmiss : get_fieldN msg seg f k [] = []) :
    get_componentN msg seg f c k r d = componentPipe msg.seps d c r d ∧
    get_componentN msgSmall "ZZZ".data 1 1 0 0 "A^B".data = "A".data := by
  constructor
  · unfold get_componentN
    rw [get_fieldN_default msg seg f k d hmiss]
  · rfl

theorem C10_witness :
    get_componentN msgSmall "ZZZ".data 1 1 0 0 "A^B".data =
      componentPipe msgSmall.seps "A^B".data 1 0 "A^B".data :=
  (C10_theorem msgSmall "ZZZ".data 1 1 0 0 "A^B".data (by decide) (by decide)).1

/-- A string that does not match the timestamp grammar parses to no value
(not an error), both as a timestamp and as a date. -/
theorem ts_none_of_no_match (s : Str) (h : matchTS s = none) :
    parse_hl7_ts_to_datetime s = .ok none ∧ parse_hl7_date s = .ok none := by
  constructor
  · unfold parse_hl7_ts_to_datetime
    by_cases hs : s = []
    · rw [if_pos hs]
    · rw [if_neg hs, h]
  · unfold parse_hl7_date
    by_cases hs : s = []
    · rw [if_pos hs]
    · rw [if_neg hs, h]

/-- Claim C1 (amended): the timestamp parser returns no value — never an
error — for every string that fails the grammar, and extraction of a
validated message with an SCH segment completes, with empty
appointment-datetime and dob fields, whenever the SCH-11 and PID-7 values
fail the grammar.  (Grammar-matching strings with out-of-range components
raise ValueError instead: see the counterexample.) -/
theorem C1_theorem :
    (∀ s : Str, matchTS s = none →
      parse_hl7_ts_to_datetime s = .ok none ∧ parse_hl7_date s = .ok none) ∧
    (∀ msg : HL7Message, validate_siu_s12 msg = .ok () →
      dictGet? msg.segments "SCH".data ≠ none →
      matchTS (dtRaw msg) = none → matchTS (dobRaw msg) = none →
      parse_siu_s12_appointment msg =
        .ok { appointment_id := apptId msg
              appointment_datetime := []
              patient := { id := patientId msg, first_name := patientFirst msg,
                           last_name := patientLast msg, dob := [],
                           gender := genderOf msg }
              provider := { id := provId msg, name := provName msg }
              location := locationOf msg
              reason := reasonOf msg }) := by
  constructor
  · exact ts_none_of_no_match
  · intro msg hv hsch h1 h2
    unfold parse_siu_s12_appointment
    rw [hv, if_neg hsch, (ts_none_of_no_match _ h1).1, (ts_none_of_no_match _ h2).2]

theorem C1_witness :
    parse_hl7_ts_to_datetime "XX".data = .ok none ∧
    parse_hl7_date "XX".data = .ok none :=
  C1_theorem.1 "XX".data (by decide)

/-- Claim C1, the claim as frozen is false: a validated SIU^S12 message
whose SCH-11 is "20251301" (month 13 matches the grammar) makes the
timestamp parser — and the whole extraction — raise ValueError instead of
yielding an empty field. -/
theorem C1_counterexample :
    validate_siu_s12 msgBadTs = .ok () ∧
    (dictGet? msgBadTs.segments "SCH".data).isSome = true ∧
    parse_siu_s12_appointment msgBadTs = .error (.pyError .valueError) ∧
    parse_hl7_ts_to_datetime "20251301".data = .error .valueError :=
  ⟨rfl, rfl, rfl, rfl⟩

/-- Claim C2: the extractor raises unsupported-message-type exactly when
the two components of MSH-9 differ from ("SIU", "S12"); when they match it
raises missing-segment exactly when no SCH occurrence exists; and a record
is only ever surfaced when both checks pass. -/
theorem C2_theorem (msg : HL7Message) :
    (isUnsupported (parse_siu_s12_appointment msg) = true ↔
      mtPair msg ≠ ("SIU".data, "S12".data)) ∧
    (mtPair msg = ("SIU".data, "S12".data) →
      (parse_siu_s12_appointment msg = .error .missingSegment ↔
        dictGet? msg.segments "SCH".data = none)) ∧
    (∀ r : AppointmentRecord, parse_siu_s12_appointment msg = .ok r →
      mtPair msg = ("SIU".data, "S12".data) ∧
      dictGet? msg.segments "SCH".data ≠ none) := by
  unfold parse_siu_s12_appointment validate_siu_s12
  by_cases hmt : mtPair msg = ("SIU".data, "S12".data)
  · rw [if_pos hmt]
    dsimp only
    by_cases hsch : dictGet? msg.segments "SCH".data = none
    · rw [if_pos hsch]
      refine ⟨?_, ?_, ?_⟩ <;> simp [isUnsupported, hmt, hsch]
    · rw [if_neg hsch]
      cases hts : parse_hl7_ts_to_datetime (dtRaw msg) with
      | error e =>
        refine ⟨?_, ?_, ?_⟩ <;> simp [isUnsupported, hmt, hsch]
      | ok dt_obj =>
        cases dt_obj with
        | none =>
          dsimp only
          cases hdob : parse_hl7_date (dobRaw msg) with
          | error e =>
            refine ⟨?_, ?_, ?_⟩ <;> simp [isUnsupported, hmt, hsch]
          | ok dob_obj =>
            refine ⟨?_, ?_, ?_⟩ <;> simp [isUnsupported, hmt, hsch]
        | some dt =>
          dsimp only
          cases hiso : to_iso8601_z dt with
          | error e =>
            refine ⟨?_, ?_, ?_⟩ <;> simp [isUnsupported, hmt, hsch]
          | ok appt_iso =>
            cases hdob : parse_hl7_date (dobRaw msg) with
            | error e =>
              refine ⟨?_, ?_, ?_⟩ <;> simp [isUnsupported, hmt, hsch]
            | ok dob_obj =>
              refine ⟨?_, ?_, ?_⟩ <;> simp [isUnsupported, hmt, hsch]
  · rw [if_neg hmt]
    dsimp only
    refine ⟨?_, ?_, ?_⟩ <;> simp [isUnsupported, hmt]

theorem C2_witness : isUnsupported (parse_siu_s12_appointment msgWrong) = true :=
  (C2_theorem msgWrong).1.mpr (by decide)

/-- Whenever extraction returns a record, every field other than the two
timestamp-derived ones is the corresponding derivation of the message. -/
theorem parse_ok_shape (msg : HL7Message) (r : AppointmentRecord)
    (h : parse_siu_s12_appointment msg = .ok r) :
    r.provider = ⟨provId msg, provName msg⟩ ∧ r.location = locationOf msg ∧
    r.appointment_id = apptId msg ∧ r.patient.id = patientId msg ∧
    r.patient.first_name = patientFirst msg ∧
    r.patient.last_name = patientLast msg ∧
    r.patient.gender = genderOf msg ∧ r.reason = reasonOf msg := by
  unfold parse_siu_s12_appointment at h
  cases hv : validate_siu_s12 msg with
  | error e => rw [hv] at h; simp at h
  | ok u =>
    rw [hv] at h
    dsimp only at h
    by_cases hsch : dictGet? msg.segments "SCH".data = none
    · rw [if_pos hsch] at h
      simp at h
    · rw [if_neg hsch] at h
      cases hts : parse_hl7_ts_to_datetime (dtRaw msg) with
      | error e => rw [hts] at h; simp at h
      | ok dt_obj =>
        rw [hts] at h
        cases dt_obj with
        | none =>
          dsimp only at h
          cases hdob : parse_hl7_date (dobRaw msg) with
          | error e => rw [hdob] at h; simp at h
          | ok dob_obj =>
            rw [hdob] at h
            dsimp only at h
            simp only [Except.ok.injEq] at h
            subst h
            exact ⟨rfl, rfl, rfl, rfl, rfl, rfl, rfl, rfl⟩
        | some dt =>
          dsimp only at h
          cases hiso : to_iso8601_z dt with
          | error e => rw [hiso] at h; simp at h
          | ok appt_iso =>
            rw [hiso] at h
            dsimp only at h
            cases hdob : parse_hl7_date (dobRaw msg) with
            | error e => rw [hdob] at h; simp at h
            | ok dob_obj =>
              rw [hdob] at h
              dsimp only at h
              simp only [Except.ok.injEq] at h
              subst h
              exact ⟨rfl, rfl, rfl, rfl, rfl, rfl, rfl, rfl⟩

/-- The probe-by-loop provider derivation equals the claim's nested
first-non-empty probe over PV1-7, PV1-6, PV1-8, PV1-9. -/
theorem providerPair_spec (msg : HL7Message) (hpv1 : pv1Present msg = true) :
    (provId msg, provName msg) = providerSpec msg := by
  unfold provId provName providerField providerSpec
  rw [hpv1]
  by_cases h7 : get_fieldN msg "PV1".data 7 0 [] = []
  · by_cases h6 : get_fieldN msg "PV1".data 6 0 [] = []
    · by_cases h8 : get_fieldN msg "PV1".data 8 0 [] = []
      · by_cases h9 : get_fieldN msg "PV1".data 9 0 [] = []
        · simp [List.find?, h7, h6, h8, h9]
        · have hb : (get_fieldN msg "PV1".data 9 0 [] != []) = true := by
            simp [bne_iff_ne, h9]
          simp [List.find?, h7, h6, h8, hb, h9]
      · have hb : (get_fieldN msg "PV1".data 8 0 [] != []) = true := by
          simp [bne_iff_ne, h8]
        simp [List.find?, h7, h6, hb, h8]
    · have hb : (get_fieldN msg "PV1".data 6 0 [] != []) = true := by
        simp [bne_iff_ne, h6]
      simp [List.find?, h7, hb, h6]
  · have hb : (get_fieldN msg "PV1".data 7 0 [] != []) = true := by
      simp [bne_iff_ne, h7]
    simp [List.find?, hb, h7]

/-- Claim C6: for every extracted record of a message with a PV1 segment,
the provider sub-record comes from the first non-empty of PV1-7, PV1-6,
PV1-8, PV1-9 (id = component 1; name = components 6, 3, 2 space-joined,
empties omitted), and is empty when all four fields are empty. -/
theorem C6_theorem (msg : HL7Message) (r : AppointmentRecord)
    (hok : parse_siu_s12_appointment msg = .ok r)
    (hpv1 : pv1Present msg = true) :
    (r.provider.id, r.provider.name) = providerSpec msg := by
  have hs := (parse_ok_shape msg r hok).1
  rw [← providerPair_spec msg hpv1, hs]

theorem C6_witness :
    (recValid.provider.id, recValid.provider.name) = providerSpec msgValid :=
  C6_theorem msgValid recValid (by rfl) (by rfl)

/-- Claim C9: a record extracted from a message without a PV1 segment has
empty provider id, provider name and location; all other fields follow
their normal derivations, and the record always carries the full fixed
shape with string leaves (the final conjunct is the record eta-expansion;
nullability is excluded by the record type itself). -/
theorem C9_theorem (msg : HL7Message) (r : AppointmentRecord)
    (hok : parse_siu_s12_appointment msg = .ok r)
    (hpv1 : pv1Present msg = false) :
    r.provider.id = [] ∧ r.provider.name = [] ∧ r.location = [] ∧
    r.appointment_id = apptId msg ∧ r.patient.id = patientId msg ∧
    r.patient.first_name = patientFirst msg ∧
    r.patient.last_name = patientLast msg ∧
    r.patient.gender = genderOf msg ∧ r.reason = reasonOf msg ∧
    r = ⟨r.appointment_id, r.appointment_datetime,
         ⟨r.patient.id, r.patient.first_name, r.patient.last_name,
          r.patient.dob, r.patient.gender⟩,
         ⟨r.provider.id, r.provider.name⟩, r.location, r.reason⟩ := by
  obtain ⟨hprov, hloc, happt, hpid, hpf, hpl, hpg, hre⟩ := parse_ok_shape msg r hok
  have hpf1 : providerField msg = none := by
    unfold providerField
    rw [hpv1]
    rfl
  have hid : provId msg = [] := by unfold provId; rw [hpf1]
  have hname : provName msg = [] := by unfold provName; rw [hpf1]
  have hlocE : locationOf msg = [] := by
    unfold locationOf
    rw [hpv1]
    rfl
  refine ⟨?_, ?_, ?_, happt, hpid, hpf, hpl, hpg, hre, ?_⟩
  · rw [hprov]; exact hid
  · rw [hprov]; exact hname
  · rw [hloc]; exact hlocE
  · rfl

theorem C9_witness :
    recNoPv1.provider.id = [] ∧ recNoPv1.provider.name = [] ∧
    recNoPv1.location = [] := by
  have h := C9_theorem msgNoPv1 recNoPv1 (by rfl) (by rfl)
  exact ⟨h.1, h.2.1, h.2.2.1⟩

/-- Splitting never produces the empty part list. -/
theorem splitOnChar_ne_nil (sep : Char) (l : Str) : splitOnChar sep l ≠ [] := by
  induction l with
  | nil => simp [splitOnChar]
  | cons c rest ih =>
    unfold splitOnChar
    by_cases h : c = sep
    · simp [h]
    · rw [if_neg h]
      cases hr : splitOnChar sep rest with
      | nil => simp
      | cons p ps => simp

/-- No part produced by splitting contains the separator. -/
theorem not_mem_splitOnChar (sep : Char) (l : Str) :
    ∀ s ∈ splitOnChar sep l, sep ∉ s := by
  induction l with
  | nil =>
    intro s hs
    simp [splitOnChar] at hs
    subst hs
    simp
  | cons c rest ih =>
    intro s hs
    unfold splitOnChar at hs
    by_cases h : c = sep
    · rw [if_pos h] at hs
      rcases List.mem_cons.mp hs with h1 | h2
      · subst h1; simp
      · exact ih s h2
    · rw [if_neg h] at hs
      cases hr : splitOnChar sep rest with
      | nil => exact absurd hr (splitOnChar_ne_nil sep rest)
      | cons p ps =>
        rw [hr] at hs
        rcases List.mem_cons.mp hs with h1 | h2
        · subst h1
          intro hmem
          rcases List.mem_cons.mp hmem with hc | hp
          · exact h hc.symm
          · exact ih p (by rw [hr]; exact List.mem_cons_self p ps) hp
        · exact ih s (by rw [hr]; exact List.mem_cons.mpr (Or.inr h2))

/-- Splitting a separator-free chunk followed by a separator peels off the
chunk as one part. -/
theorem splitOnChar_append_cons (sep : Char) (x t : Str) (hx : sep ∉ x) :
    splitOnChar sep (x ++ sep :: t) = x :: splitOnChar sep t := by
  induction x with
  | nil => simp [splitOnChar]
  | cons c cs ih =>
    have hc : ¬(c = sep) := fun h => hx (by rw [h]; exact List.mem_cons_self _ _)
    have hcs : sep ∉ cs := fun h => hx (List.mem_cons.mpr (Or.inr h))
    rw [List.cons_append]
    simp only [splitOnChar, if_neg hc, ih hcs]

theorem joinCR_cons_cons (x y : Str) (ys : List Str) :
    joinCR (x :: y :: ys) = x ++ '\r' :: joinCR (y :: ys) := by
  simp [joinCR]

theorem joinCR_cons (x : Str) (rest : List Str) :
    ∃ t, joinCR (x :: rest) = x ++ t := by
  cases rest with
  | nil => exact ⟨[], by simp [joinCR]⟩
  | cons y ys => exact ⟨'\r' :: joinCR (y :: ys), by simp [joinCR]⟩

/-- Re-splitting a "\r"-joined list of CR-free parts (with the trailing
"\r" appended) recovers the parts plus one final empty part. -/
theorem splitCR_join :
    ∀ parts : List Str, parts ≠ [] → (∀ x ∈ parts, '\r' ∉ x) →
      splitOnChar '\r' (joinCR parts ++ ['\r']) = parts ++ [[]] := by
  intro parts
  induction parts with
  | nil => intro h _; exact absurd rfl h
  | cons x rest ih =>
    intro _ hcf
    have hx : '\r' ∉ x := hcf x (List.mem_cons_self _ _)
    cases rest with
    | nil =>
      show splitOnChar '\r' (x ++ '\r' :: []) = [x, []]
      rw [splitOnChar_append_cons '\r' x [] hx]
      rfl
    | cons y ys =>
      have hrest : ∀ z ∈ y :: ys, '\r' ∉ z := fun z hz =>
        hcf z (List.mem_cons_of_mem _ hz)
      rw [joinCR_cons_cons, List.append_assoc, List.cons_append]
      rw [splitOnChar_append_cons '\r' x (joinCR (y :: ys) ++ ['\r']) hx]
      rw [ih (by simp) hrest]
      rfl

/-- The number of positions of a list satisfying a predicate is its count. -/
theorem length_range_filter {α : Type} (p : α → Bool) (d : α) (l : List α) :
    ((List.range l.length).filter (fun i => p (l.getD i d))).length = l.countP p := by
  induction l with
  | nil => simp
  | cons a t ih =>
    rw [List.length_cons, List.range_succ_eq_map, List.filter_cons]
    simp only [List.getD_cons_zero]
    rw [List.filter_map]
    have hcomp : ((fun i => p ((a :: t).getD i d)) ∘ Nat.succ) =
        (fun i => p (t.getD i d)) := by
      funext i
      simp [Function.comp]
    rw [hcomp, List.countP_cons]
    by_cases hp : p a = true
    · rw [if_pos hp, if_pos hp, List.length_cons, List.length_map, ih]
    · rw [if_neg hp, if_neg hp, List.length_map, ih]
      omega

/-- A slice of a list as the positionwise reads of its index range. -/
theorem drop_take_eq_map_range' {α : Type} (d : α) :
    ∀ (n s : Nat) (l : List α), s + n ≤ l.length →
      (l.drop s).take n = (List.range' s n).map (fun j => l.getD j d) := by
  intro n
  induction n with
  | zero => intro s l _; simp
  | succ m ih =>
    intro s l h
    have hs : s < l.length := by omega
    rw [List.drop_eq_getElem_cons hs, List.range'_succ, List.take_succ_cons,
      List.map_cons]
    refine congrArg₂ _ ?_ ?_
    · exact (List.getD_eq_getElem l d hs).symm
    · exact ih (s + 1) l (by omega)

theorem mem_mshIndexes (segs : List Str) (i : Nat) :
    i ∈ mshIndexes segs ↔ i < segs.length ∧ startsMSH (segs.getD i []) = true := by
  simp [mshIndexes, List.mem_filter, List.mem_range]

theorem mshIndexes_sorted (segs : List Str) :
    (mshIndexes segs).Pairwise (· < ·) :=
  (List.pairwise_lt_range _).filter _

/-- The header-marker indices are strictly increasing positionwise. -/
theorem mshIndexes_mono (segs : List Str) (a b : Nat)
    (ha : a < (mshIndexes segs).length) (hb : b < (mshIndexes segs).length)
    (hab : a < b) :
    (mshIndexes segs).getD a 0 < (mshIndexes segs).getD b 0 := by
  have h := List.pairwise_iff_get.mp (mshIndexes_sorted segs) ⟨a, ha⟩ ⟨b, hb⟩ hab
  rw [List.get_eq_getElem, List.get_eq_getElem] at h
  rw [List.getD_eq_getElem _ 0 ha, List.getD_eq_getElem _ 0 hb]
  exact h

/-- No segment line strictly between a header-marker index and the next
one (or the end of the segment list, for the last marker) starts with the
header marker. -/
theorem mshIndexes_gap (segs : List Str) (k j : Nat)
    (hk : k < (mshIndexes segs).length)
    (hj1 : (mshIndexes segs).getD k 0 < j)
    (hj2 : k + 1 < (mshIndexes segs).length → j < (mshIndexes segs).getD (k + 1) 0)
    (hjlt : j < segs.length) :
    ¬ startsMSH (segs.getD j []) = true := by
  intro hsMSH
  have hjmem : j ∈ mshIndexes segs := (mem_mshIndexes segs j).mpr ⟨hjlt, hsMSH⟩
  obtain ⟨⟨mi, hmi⟩, hmig⟩ := List.mem_iff_get.mp hjmem
  have hgd : (mshIndexes segs).getD mi 0 = j := by
    rw [List.getD_eq_getElem _ 0 hmi]
    rw [List.get_eq_getElem] at hmig
    exact hmig
  rcases lt_trichotomy mi k with hmk | hmk | hmk
  · have := mshIndexes_mono segs mi k hmi hk hmk
    omega
  · subst hmk
    omega
  · have hk1 : k + 1 < (mshIndexes segs).length := by omega
    have hlt2 := hj2 hk1
    rcases Nat.eq_or_lt_of_le (show k + 1 ≤ mi by omega) with heq | hlt3
    · rw [← heq] at hgd
      omega
    · have := mshIndexes_mono segs (k + 1) mi hk1 hmi hlt3
      omega

/-- Prepending text that starts with the marker keeps the marker. -/
theorem startsMSH_append (x t : Str) (h : startsMSH x = true) :
    startsMSH (x ++ t) = true := by
  unfold startsMSH at *
  have hx : x.take 3 = "MSH".data := by simpa [beq_iff_eq] using h
  have hlen : 3 ≤ x.length := by
    have hl := congrArg List.length hx
    simp [List.length_take] at hl
    omega
  rw [List.take_append_eq_append_take, show 3 - x.length = 0 by omega]
  simp [hx]

/-- Claim C4: the splitter returns exactly one message per header-marker
segment line (none when there is no marker), and every returned message
text starts with the header marker, ends with the segment delimiter, and
contains exactly one header segment among its non-blank segment lines. -/
theorem C4_theorem (raw : Str) :
    (split_messages raw).length = (segLines raw).countP startsMSH ∧
    ((segLines raw).countP startsMSH = 0 → split_messages raw = []) ∧
    (∀ m ∈ split_messages raw,
      startsMSH m = true ∧ m.getLast? = some '\r' ∧
      ((splitOnChar '\r' m).filter (fun s => !(isBlank s))).countP startsMSH = 1) := by
  have hlen1 : (mshIndexes (segLines raw)).length = (segLines raw).countP startsMSH :=
    length_range_filter startsMSH [] (segLines raw)
  by_cases hidx : mshIndexes (segLines raw) = []
  · refine ⟨?_, ?_, ?_⟩
    · unfold split_messages
      rw [if_pos hidx, ← hlen1, hidx]
      rfl
    · intro _
      unfold split_messages
      rw [if_pos hidx]
    · intro m hm
      unfold split_messages at hm
      rw [if_pos hidx] at hm
      simp at hm
  · refine ⟨?_, ?_, ?_⟩
    · unfold split_messages
      rw [if_neg hidx, List.length_map, List.length_range, hlen1]
    · intro h0
      exact absurd (List.length_eq_zero.mp (hlen1.trans h0)) hidx
    · intro m hm
      unfold split_messages at hm
      rw [if_neg hidx] at hm
      obtain ⟨k, hkr, hmk⟩ := List.mem_map.mp hm
      have hklt : k < (mshIndexes (segLines raw)).length := List.mem_range.mp hkr
      dsimp only at hmk
      set segs := segLines raw with hsegs
      set idxs := mshIndexes segs with hidxs
      set start := idxs.getD k 0 with hstartdef
      set e := if k + 1 < idxs.length then idxs.getD (k + 1) 0 else segs.length
        with hedef
      have hm' : m = joinCR ((segs.drop start).take (e - start)) ++ ['\r'] :=
        hmk.symm
      have hstart_mem : start ∈ idxs := by
        rw [hstartdef, List.getD_eq_getElem idxs 0 hklt]
        exact List.getElem_mem hklt
      have hstart_lt : start < segs.length := ((mem_mshIndexes segs start).mp hstart_mem).1
      have hstartMSH : startsMSH (segs.getD start []) = true :=
        ((mem_mshIndexes segs start).mp hstart_mem).2
      have hse : start < e := by
        rw [hedef]
        by_cases hk1 : k + 1 < idxs.length
        · rw [if_pos hk1]
          exact mshIndexes_mono segs k (k + 1) hklt hk1 (Nat.lt_succ_self k)
        · rw [if_neg hk1]
          exact hstart_lt
      have he_le : e ≤ segs.length := by
        rw [hedef]
        by_cases hk1 : k + 1 < idxs.length
        · rw [if_pos hk1]
          have hmem : idxs.getD (k + 1) 0 ∈ idxs := by
            rw [List.getD_eq_getElem idxs 0 hk1]
            exact List.getElem_mem hk1
          exact le_of_lt ((mem_mshIndexes segs _).mp hmem).1
        · rw [if_neg hk1]
      have hrun : (segs.drop start).take (e - start) =
          (List.range' start (e - start)).map (fun j => segs.getD j []) :=
        drop_take_eq_map_range' [] (e - start) start segs (by omega)
      have hrun2 : (segs.drop start).take (e - start) =
          segs.getD start [] ::
            (List.range' (start + 1) (e - start - 1)).map (fun j => segs.getD j []) := by
        obtain ⟨n, hn⟩ : ∃ n, e - start = n + 1 := ⟨e - start - 1, by omega⟩
        rw [hrun, hn, List.range'_succ, List.map_cons, Nat.add_sub_cancel]
      have hrun_mem : ∀ s ∈ (segs.drop start).take (e - start), s ∈ segs := by
        intro s hs
        rw [hrun] at hs
        obtain ⟨j, hj, hjs⟩ := List.mem_map.mp hs
        have hjb := List.mem_range'_1.mp hj
        have hjlt : j < segs.length := by omega
        rw [← hjs, List.getD_eq_getElem segs [] hjlt]
        exact List.getElem_mem hjlt
      have hrun_cf : ∀ s ∈ (segs.drop start).take (e - start), '\r' ∉ s := by
        intro s hs
        have hseg := hrun_mem s hs
        rw [hsegs] at hseg
        unfold segLines at hseg
        exact not_mem_splitOnChar '\r' _ s (List.mem_filter.mp hseg).1
      have hrun_nb : ∀ s ∈ (segs.drop start).take (e - start),
          (!(isBlank s)) = true := by
        intro s hs
        have hseg := hrun_mem s hs
        rw [hsegs] at hseg
        unfold segLines at hseg
        exact (List.mem_filter.mp hseg).2
      refine ⟨?_, ?_, ?_⟩
      · rw [hm', hrun2]
        obtain ⟨t, ht⟩ := joinCR_cons (segs.getD start []) _
        rw [ht, List.append_assoc]
        exact startsMSH_append _ _ hstartMSH
      · rw [hm']
        exact List.getLast?_concat _
      · rw [hm',
          splitCR_join ((segs.drop start).take (e - start))
            (by rw [hrun2]; simp) hrun_cf,
          List.filter_append, List.filter_eq_self.mpr hrun_nb,
          show ([([] : Str)]).filter (fun s => !(isBlank s)) = [] by simp [isBlank],
          List.append_nil, hrun2, List.countP_cons, if_pos hstartMSH]
        have hmid : (((List.range' (start + 1) (e - start - 1)).map
            (fun j => segs.getD j [])).countP startsMSH) = 0 := by
          rw [List.countP_eq_zero]
          intro s hs
          obtain ⟨j, hj, hjs⟩ := List.mem_map.mp hs
          have hjb := List.mem_range'_1.mp hj
          have hjlt : j < segs.length := by omega
          rw [← hjs]
          refine mshIndexes_gap segs k j hklt ?_ ?_ hjlt
          · rw [← hidxs, ← hstartdef]
            omega
          · intro hk1
            have hk1' : k + 1 < idxs.length := by rw [hidxs]; exact hk1
            have hee : e = idxs.getD (k + 1) 0 := by rw [hedef, if_pos hk1']
            rw [← hidxs, ← hee]
            omega
        rw [hmid]

/-- The two-message blob of the repository's test suite. -/
def blobTwo : Str := VALID_SIU ++ '\r' :: WRONG_TYPE

theorem C4_witness :
    (split_messages blobTwo).length = (segLines blobTwo).countP startsMSH ∧
    startsMSH ((split_messages blobTwo).getD 0 []) = true := by
  refine ⟨(C4_theorem blobTwo).1, ?_⟩
  exact ((C4_theorem blobTwo).2.2 ((split_messages blobTwo).getD 0 []) (by decide)).1

end SiuParser
